import Mathlib

/-!
# FPsim scenario-composition model: verification development

The repository's `src/` holds only two tutorial notebooks
(`docs/tutorials/T2_scenarios.ipynb`, `docs/tutorials/T3_scenarios_plotting.ipynb`)
that call the fpsim scenario API (`fp.make_scen`, `+` on scenarios,
`fp.Scenarios.add_scen`).  The implementing module (`fpsim/scenarios.py`) is not
part of the supplied sources, so the definitions below are modelled from the
specification's data model and component contracts (spec.md §3, §4.1–§4.3),
kept faithful to the observed notebook invocations.  Probabilities and ages are
modelled as rationals (`ℚ`); keyword-argument dictionaries become records with
optional fields; fallible construction returns `Except`.
-/

/-- Modelled from the spec: an age-band selector element (spec.md §3, §9).
A band is either a comparison (`">35"`, `"<18"`) or an explicit range
(`"18-20"`); "all ages" is represented by the empty selector list. -/
inductive AgeBand where
  | lt (n : Nat)
  | gt (n : Nat)
  | range (lo hi : Nat)
deriving DecidableEq

/-- Modelled from the spec: the `ages` keyword argument as supplied by a caller:
absent, a single band string, or a list of band strings (spec.md §3). -/
inductive AgesInput where
  | noneGiven
  | single (s : String)
  | multiple (ss : List String)
deriving DecidableEq

/-- Decimal digits to a number; fails on a non-digit. -/
def parseDigitsAux : List Char → Nat → Option Nat
  | [], acc => some acc
  | c :: rest, acc =>
    if c.isDigit then parseDigitsAux rest (acc * 10 + (c.toNat - 48)) else none

/-- Parse a nonempty run of decimal digits. -/
def parseDigits : List Char → Option Nat
  | [] => none
  | cs => parseDigitsAux cs 0

/-- Split a character list at the first dash, when one is present. -/
def splitDash : List Char → Option (List Char × List Char)
  | [] => none
  | c :: rest =>
    if c = '-' then some ([], rest)
    else (splitDash rest).map (fun p => (c :: p.1, p.2))

/-- Modelled from the spec: parse one age-band string into an `AgeBand`
(spec.md §9: "operator + threshold, or explicit enumerated band"). -/
def parseBand (s : String) : Option AgeBand :=
  match s.toList with
  | '>' :: rest => (parseDigits rest).map AgeBand.gt
  | '<' :: rest => (parseDigits rest).map AgeBand.lt
  | cs =>
    match splitDash cs with
    | some (a, b) =>
      match parseDigits a, parseDigits b with
      | some lo, some hi => some (AgeBand.range lo hi)
      | _, _ => none
    | none => none

/-- Modelled from the spec: parse a list of age-band strings; fails when any
element is unparsable. -/
def parseBands : List String → Option (List AgeBand)
  | [] => some []
  | s :: rest =>
    match parseBand s, parseBands rest with
    | some b, some bs => some (b :: bs)
    | _, _ => none

/-- Modelled from the spec: resolve the `ages` argument into a band selector;
an absent argument defaults to "all ages" (the empty selector). -/
def parseAges : AgesInput → Option (List AgeBand)
  | AgesInput.noneGiven => some []
  | AgesInput.single s => (parseBand s).map (fun b => [b])
  | AgesInput.multiple ss => parseBands ss

/-- Whether a single age band selects a given age. -/
def bandMatches (b : AgeBand) (a : ℚ) : Bool :=
  match b with
  | AgeBand.lt n => decide (a < (n : ℚ))
  | AgeBand.gt n => decide ((n : ℚ) < a)
  | AgeBand.range lo hi => decide ((lo : ℚ) ≤ a ∧ a ≤ (hi : ℚ))

/-- Whether a band selector selects a given age; the empty selector means
"all ages" (spec.md §3). -/
def selectorMatches (sel : List AgeBand) (a : ℚ) : Bool :=
  match sel with
  | [] => true
  | _ => sel.any (fun b => bandMatches b a)

/-- Modelled from the spec: a `TransitionOverride` record (spec.md §3).
Identifies a target cell of the method-transition structure by `method` or by a
(`source`, `dest`) pair; `ages` is the resolved band selector; `init_factor`
scales the baseline rate, `init_value` sets it absolutely (and wins over the
factor); `value` is the absolute switching probability for a (source, dest)
pair as used in the notebooks; `copy_from` names a template method. -/
structure TransitionOverride where
  method : Option String := none
  source : Option String := none
  dest : Option String := none
  ages : List AgeBand := []
  init_factor : Option ℚ := none
  init_value : Option ℚ := none
  value : Option ℚ := none
  copy_from : Option String := none
deriving DecidableEq

/-- Modelled from the spec: the effective initiation rate an override produces
for its targeted cell, given the baseline rate (spec.md §3: `init_value` and
`init_factor` are mutually exclusive in effect; if both given, `init_value`
wins). -/
def effectiveRate (baseline : ℚ) (o : TransitionOverride) : ℚ :=
  match o.init_value, o.init_factor with
  | some v, _ => v
  | none, some f => baseline * f
  | none, none => baseline

/-- Modelled from the spec and notebook usage: the effective switching
probability for a (source, dest) override; `value` gives it absolutely. -/
def effectiveSwitchRate (baseline : ℚ) (o : TransitionOverride) : ℚ :=
  match o.value with
  | some v => v
  | none => baseline

/-- Modelled from the spec: one entry of the `probs` list as supplied by a
caller — a keyword dictionary with the closed field set of spec.md §9. -/
structure OverrideDict where
  method : Option String := none
  source : Option String := none
  dest : Option String := none
  ages : AgesInput := AgesInput.noneGiven
  init_factor : Option ℚ := none
  init_value : Option ℚ := none
  value : Option ℚ := none
  copy_from : Option String := none
deriving DecidableEq

/-- Modelled from the spec: configuration errors raised at spec-build time
(spec.md §4.1, §7). -/
inductive ConfigError where
  | missingIdentifier
  | unparsableAges
deriving DecidableEq

/-- Modelled from the spec: exactly one of {`method`, (`source` & `dest`)}
must identify the target (spec.md §3). -/
def identifiesTarget (d : OverrideDict) : Bool :=
  match d.method, d.source, d.dest with
  | some _, none, none => true
  | none, some _, some _ => true
  | _, _, _ => false

/-- Modelled from the spec: validate one override dictionary and build the
`TransitionOverride`; fails when no identifying key is present or the `ages`
expression is unparsable (spec.md §4.1). -/
def buildOverride (d : OverrideDict) : Except ConfigError TransitionOverride :=
  if identifiesTarget d then
    match parseAges d.ages with
    | some sel =>
      Except.ok
        { method := d.method, source := d.source, dest := d.dest, ages := sel,
          init_factor := d.init_factor, init_value := d.init_value,
          value := d.value, copy_from := d.copy_from }
    | none => Except.error ConfigError.unparsableAges
  else
    Except.error ConfigError.missingIdentifier

/-- Modelled from the spec: validate a whole `probs` list, failing on the first
invalid entry (fail-fast, spec.md §4.3). -/
def buildOverrides : List OverrideDict → Except ConfigError (List TransitionOverride)
  | [] => Except.ok []
  | d :: rest =>
    match buildOverride d, buildOverrides rest with
    | Except.ok o, Except.ok os => Except.ok (o :: os)
    | Except.error e, _ => Except.error e
    | _, Except.error e => Except.error e

/-- Modelled from the spec: a `ScenarioSpec` (spec.md §3): a label, the year at
which overrides take effect, an efficacy mapping (ordered association list from
method name to probability) and an ordered list of transition overrides. -/
structure ScenarioSpec where
  label : String
  year : Int
  efficacy_overrides : List (String × ℚ)
  probability_overrides : List TransitionOverride
deriving DecidableEq

/-- Modelled from the spec: the full keyword-argument set of `make_scen`
(spec.md §4.1, §6). -/
structure MakeScenArgs where
  label : Option String := none
  year : Int
  eff : Option (List (String × ℚ)) := none
  method : Option String := none
  source : Option String := none
  dest : Option String := none
  ages : AgesInput := AgesInput.noneGiven
  init_factor : Option ℚ := none
  init_value : Option ℚ := none
  value : Option ℚ := none
  copy_from : Option String := none
  probs : Option (List OverrideDict) := none
deriving DecidableEq

/-- Whether any top-level transition-override shorthand field was supplied
(spec.md §4.1: synthesize a single-element override list from those fields). -/
def shorthandGiven (a : MakeScenArgs) : Bool :=
  a.method.isSome || a.source.isSome || a.dest.isSome ||
  a.init_factor.isSome || a.init_value.isSome || a.value.isSome ||
  a.copy_from.isSome

/-- The override dictionary synthesized from the top-level shorthand fields. -/
def shorthandDict (a : MakeScenArgs) : OverrideDict :=
  { method := a.method, source := a.source, dest := a.dest, ages := a.ages,
    init_factor := a.init_factor, init_value := a.init_value,
    value := a.value, copy_from := a.copy_from }

/-- Modelled from the spec: the Scenario Spec Builder `make_scen`
(spec.md §4.1).  `eff` populates `efficacy_overrides` directly; an explicit
`probs` list is validated entry by entry; otherwise, when shorthand fields are
present, a single-element `probability_overrides` list is synthesized from
them; validation errors are raised (returned) at build time. -/
def make_scen (a : MakeScenArgs) : Except ConfigError ScenarioSpec :=
  let eo := a.eff.getD []
  let lb := a.label.getD ""
  match a.probs with
  | some ds =>
    (buildOverrides ds).map (fun os =>
      { label := lb, year := a.year, efficacy_overrides := eo,
        probability_overrides := os })
  | none =>
    if shorthandGiven a then
      (buildOverride (shorthandDict a)).map (fun o =>
        { label := lb, year := a.year, efficacy_overrides := eo,
          probability_overrides := [o] })
    else
      Except.ok
        { label := lb, year := a.year, efficacy_overrides := eo,
          probability_overrides := [] }

/-- Modelled from the spec: the Scenario Combinator (spec.md §4.2, the `+`
operator): a pure function returning a new spec whose override collections are
the ordered concatenations of the operands'; the combined label is derived
from the operands' labels and the year is taken from the left operand. -/
def combine (a b : ScenarioSpec) : ScenarioSpec :=
  { label := a.label ++ " + " ++ b.label
    year := a.year
    efficacy_overrides := a.efficacy_overrides ++ b.efficacy_overrides
    probability_overrides := a.probability_overrides ++ b.probability_overrides }

/-- The authoritative efficacy entry for a method in an ordered efficacy list:
the LAST entry for that method wins (later entries overwrite earlier ones,
spec.md §4.2 last-write-wins). -/
def lookupLast (l : List (String × ℚ)) (m : String) : Option ℚ :=
  match l with
  | [] => none
  | (k, v) :: rest =>
    match lookupLast rest m with
    | some w => some w
    | none => if k = m then some v else none

/-- Modelled from the spec: the baseline simulation configuration as observed
in the notebooks (`fp.pars(location=..., n_agents=..., start_year=...,
end_year=...)` plus `add_method`); only the method set matters to the
scenario layer. -/
structure Pars where
  location : String
  n_agents : Nat
  start_year : Int
  end_year : Int
  methods : List (String × ℚ)
deriving DecidableEq

/-- Modelled from the spec: `pars.add_method(name, eff)` appends a method to
the baseline method set. -/
def Pars.add_method (p : Pars) (name : String) (eff : ℚ) : Pars :=
  { p with methods := p.methods ++ [(name, eff)] }

/-- The spec registered when `add_scen` is called with no spec: an empty
baseline entry. -/
def default_spec : ScenarioSpec :=
  { label := "", year := 0, efficacy_overrides := [], probability_overrides := [] }

/-- Modelled from the spec: the Scenario Registry (spec.md §4.3): a baseline
configuration, a repeat count, and an ordered list of (label, spec) runnable
entries. -/
structure Scenarios where
  pars : Pars
  repeats : Nat
  scens : List (String × ScenarioSpec)
deriving DecidableEq

/-- Modelled from the spec: `Scenarios.add_scen(spec?, label?)` registers a
spec, optionally relabeling it; a missing spec registers a baseline entry;
every call appends a new runnable entry (label is metadata, not an identity
key, spec.md §4.3). -/
def Scenarios.add_scen (r : Scenarios) (spec : Option ScenarioSpec)
    (label : Option String) : Scenarios :=
  let sp := spec.getD default_spec
  let lb := label.getD sp.label
  { r with scens := r.scens ++ [(lb, sp)] }

/-- An object store of scenario specs, used to express that combination
allocates a new spec object and mutates neither operand (spec.md §3
lifecycle). A spec object is an index into the store. -/
abbrev SpecStore := List ScenarioSpec

/-- Modelled from the spec: combining two spec objects in a store allocates a
new spec holding the combination; existing objects are untouched. -/
def combineNew (store : SpecStore) (i j : Nat) : SpecStore :=
  match store[i]?, store[j]? with
  | some a, some b => store ++ [combine a b]
  | _, _ => store


/-! ## Concrete fixtures (values taken from the notebooks) -/

/-- The `s1`-style spec of T2: raised Injectables efficacy. -/
def specA0 : ScenarioSpec :=
  { label := "s1", year := 2020,
    efficacy_overrides := [("Injectables", 98/100)],
    probability_overrides := [] }

/-- The `s2`-style spec of T2: doubled Injectables initiation. -/
def specB0 : ScenarioSpec :=
  { label := "s2", year := 2020,
    efficacy_overrides := [("Injectables", 99/100)],
    probability_overrides := [{ method := some "Injectables", init_factor := some 2 }] }

/-- An override carrying both `init_value` and `init_factor`. -/
def overrideC2 : TransitionOverride :=
  { method := some "Injectables", init_factor := some 2, init_value := some (7/100) }

/-- The shorthand builder input of T2 cell 5. -/
def argsC5 : MakeScenArgs :=
  { year := 2020, method := some "Injectables", init_factor := some 2 }

/-- The efficacy builder input of T2 cell 3. -/
def argsC6 : MakeScenArgs :=
  { year := 2020, eff := some [("Injectables", 99/100)] }

/-- A `probs` entry missing any identifying key. -/
def badDict : OverrideDict := { init_factor := some 2 }

/-- A builder input whose single `probs` entry lacks an identifying key. -/
def argsC7 : MakeScenArgs := { year := 2027, probs := some [badDict] }

/-- A shorthand builder input (only `init_factor`, no `probs`) lacking any
identifying key. -/
def argsC7s : MakeScenArgs := { year := 2027, init_factor := some 2 }

/-- A shorthand builder input whose top-level `ages` expression is not
parsable as an age band. -/
def argsC7u : MakeScenArgs :=
  { year := 2027, method := some "Injectables", ages := AgesInput.single "oops" }

/-- The `s4`-style builder input of T2 cell 11: ages restricted to `">35"`. -/
def argsC8 : MakeScenArgs :=
  { year := 2027, method := some "Injectables", init_factor := some 2,
    ages := AgesInput.single ">35" }

/-- The override `argsC8` synthesizes. -/
def overrideC8 : TransitionOverride :=
  { method := some "Injectables", ages := [AgeBand.gt 35], init_factor := some 2 }

/-- The spec `argsC8` builds. -/
def specC8 : ScenarioSpec :=
  { label := "", year := 2027, efficacy_overrides := [],
    probability_overrides := [overrideC8] }

/-- The baseline configuration used by the notebooks. -/
def parsT2 : Pars :=
  { location := "senegal", n_agents := 10000, start_year := 1980,
    end_year := 2020, methods := [] }

/-- An empty registry over the notebook baseline. -/
def regT2 : Scenarios := { pars := parsT2, repeats := 3, scens := [] }

/-! ## Helper lemmas -/

/-- The last-entry lookup over a concatenation prefers entries of the right
list. -/
theorem lookupLast_append_right (l₁ l₂ : List (String × ℚ)) (m : String) (v : ℚ)
    (h : lookupLast l₂ m = some v) : lookupLast (l₁ ++ l₂) m = some v := by
  induction l₁ with
  | nil => simpa using h
  | cons p rest ih =>
    obtain ⟨k, w⟩ := p
    simp only [List.cons_append, lookupLast, List.append_eq, ih]

/-- An override dictionary with no identifying key, or with an unparsable ages
expression, fails validation. -/
theorem buildOverride_error_of_bad (d : OverrideDict)
    (hbad : identifiesTarget d = false ∨ parseAges d.ages = none) :
    ∃ e, buildOverride d = Except.error e := by
  rcases hbad with h | h
  · exact ⟨ConfigError.missingIdentifier, by simp [buildOverride, h]⟩
  · by_cases hid : identifiesTarget d
    · exact ⟨ConfigError.unparsableAges, by simp [buildOverride, hid, h]⟩
    · exact ⟨ConfigError.missingIdentifier, by simp [buildOverride, hid]⟩

/-- If any entry of a `probs` list fails validation, the whole list fails. -/
theorem buildOverrides_error_of_mem (ds : List OverrideDict) (d : OverrideDict)
    (hd : d ∈ ds) (e₀ : ConfigError) (he : buildOverride d = Except.error e₀) :
    ∃ e, buildOverrides ds = Except.error e := by
  induction ds with
  | nil => cases hd
  | cons x rest ih =>
    rcases List.mem_cons.mp hd with hx | hmem
    · subst hx
      exact ⟨e₀, by simp [buildOverrides, he]⟩
    · obtain ⟨e, he'⟩ := ih hmem
      cases hx : buildOverride x with
      | error e' => exact ⟨e', by simp [buildOverrides, hx]⟩
      | ok o => exact ⟨e, by simp [buildOverrides, hx, he']⟩

/-! ## Claim theorems -/

/-- C1: for every pair of scenario specs A and B, `combine` returns a spec
whose `probability_overrides` is exactly A's followed by B's and whose
`efficacy_overrides` is the ordered union (concatenation) of the operands'
efficacy maps, so that when both operands override the same method, the right
operand's entry comes later and is the authoritative one under last-entry
resolution. -/
theorem combine_concat_law (A B : ScenarioSpec) :
    (combine A B).probability_overrides
      = A.probability_overrides ++ B.probability_overrides ∧
    (combine A B).efficacy_overrides
      = A.efficacy_overrides ++ B.efficacy_overrides ∧
    ∀ m v, lookupLast B.efficacy_overrides m = some v →
      lookupLast (combine A B).efficacy_overrides m = some v := by
  refine ⟨rfl, rfl, fun m v h => ?_⟩
  exact lookupLast_append_right A.efficacy_overrides B.efficacy_overrides m v h

/-- Witness for C1 on the notebook specs `s1` and `s2`, both of which
override Injectables efficacy: the right operand's entry is authoritative. -/
theorem combine_concat_law_witness :
    lookupLast (combine specA0 specB0).efficacy_overrides "Injectables"
      = some (99/100) :=
  (combine_concat_law specA0 specB0).2.2 "Injectables" (99/100) (by rfl)

/-- C2: whenever an override carries `init_value`, the effective rate it
produces equals that `init_value`, whatever `init_factor` is (absolute value
takes precedence over relative scaling; no error is raised when both are
given). -/
theorem init_value_precedence (b v : ℚ) (o : TransitionOverride)
    (h : o.init_value = some v) : effectiveRate b o = v := by
  cases hf : o.init_factor <;> simp [effectiveRate, h, hf]

/-- Witness for C2 on an override with `init_value = 0.07` and
`init_factor = 2`: the effective rate is 0.07. -/
theorem init_value_precedence_witness : effectiveRate (3/100) overrideC2 = 7/100 :=
  init_value_precedence (3/100) (7/100) overrideC2 rfl

/-- C3: combining three specs left-to-right and right-to-left yields the same
final override ordering in both `probability_overrides` and
`efficacy_overrides` (associativity of combination). -/
theorem combine_assoc (A B C : ScenarioSpec) :
    (combine (combine A B) C).probability_overrides
      = (combine A (combine B C)).probability_overrides ∧
    (combine (combine A B) C).efficacy_overrides
      = (combine A (combine B C)).efficacy_overrides := by
  constructor <;> simp [combine]

/-- C4: combining two spec objects in a store mutates neither operand: after
the combination both operands are still present at their positions with all
their fields (label, year, efficacy and probability overrides) unchanged, and
the combination lives in a freshly allocated object. -/
theorem combine_no_mutation (store : SpecStore) (i j : Nat) (a b : ScenarioSpec)
    (hi : store[i]? = some a) (hj : store[j]? = some b) :
    (combineNew store i j)[i]? = some a ∧
    (combineNew store i j)[j]? = some b ∧
    (combineNew store i j)[store.length]? = some (combine a b) := by
  have hi' : i < store.length := by
    rcases List.getElem?_eq_some.mp hi with ⟨h, _⟩
    exact h
  have hj' : j < store.length := by
    rcases List.getElem?_eq_some.mp hj with ⟨h, _⟩
    exact h
  have hnew : combineNew store i j = store ++ [combine a b] := by
    simp [combineNew, hi, hj]
  refine ⟨?_, ?_, ?_⟩
  · rw [hnew, List.getElem?_append_left hi', hi]
  · rw [hnew, List.getElem?_append_left hj', hj]
  · rw [hnew, List.getElem?_concat_length]

/-- Witness for C4 on a store holding the notebook specs `s1` and `s2`. -/
theorem combine_no_mutation_witness :
    (combineNew [specA0, specB0] 0 1)[0]? = some specA0 ∧
    (combineNew [specA0, specB0] 0 1)[1]? = some specB0 ∧
    (combineNew [specA0, specB0] 0 1)[2]? = some (combine specA0 specB0) :=
  combine_no_mutation [specA0, specB0] 0 1 specA0 specB0 rfl rfl

/-- C9: registering the same spec object twice under two different labels
appends two distinct runnable entries to the registry (label is metadata, not
an identity key used to merge scenarios with identical overrides). -/
theorem add_scen_distinct_entries (r : Scenarios) (s : ScenarioSpec)
    (l₁ l₂ : String) (h : l₁ ≠ l₂) :
    ((r.add_scen (some s) (some l₁)).add_scen (some s) (some l₂)).scens
      = r.scens ++ [(l₁, s), (l₂, s)] ∧
    ((l₁, s) : String × ScenarioSpec) ≠ (l₂, s) := by
  constructor
  · simp [Scenarios.add_scen]
  · intro hc
    exact h (congrArg Prod.fst hc)

/-- Witness for C9: registering `s2` twice, as in T3 where `f4` carries the
combined overrides but is re-labelled at registration. -/
theorem add_scen_distinct_entries_witness :
    ((regT2.add_scen (some specB0) (some "5x uptake")).add_scen (some specB0)
        (some "5x uptake plus switching")).scens
      = regT2.scens ++ [("5x uptake", specB0), ("5x uptake plus switching", specB0)] ∧
    (("5x uptake", specB0) : String × ScenarioSpec)
      ≠ ("5x uptake plus switching", specB0) :=
  add_scen_distinct_entries regT2 specB0 "5x uptake" "5x uptake plus switching"
    (by decide)

/-- C10: the builder accepts a transition override identified by a
(source, dest) pair whose absolute switching probability is supplied under the
keyword `value`; the resulting spec holds exactly that override, and the
override's effective switching probability equals the given value. -/
theorem value_keyword_override (y : Int) (lbl : Option String) (s t : String)
    (v b : ℚ) :
    make_scen
        { year := y, label := lbl,
          probs := some [{ source := some s, dest := some t, value := some v }] }
      = Except.ok
          { label := lbl.getD "", year := y, efficacy_overrides := [],
            probability_overrides :=
              [{ source := some s, dest := some t, value := some v }] } ∧
    effectiveSwitchRate b { source := some s, dest := some t, value := some v }
      = v :=
  ⟨rfl, rfl⟩

/-- C5: when the `method`/`init_factor`/`init_value` shorthand is supplied
without an explicit `probs` list, the builder synthesizes exactly one
`TransitionOverride` from those fields; in particular
`method='Injectables', init_factor=2, year=2020` yields a single override with
that method and factor. -/
theorem shorthand_single_override (args : MakeScenArgs) (m : String) (f : ℚ)
    (sel : List AgeBand)
    (hm : args.method = some m) (hf : args.init_factor = some f)
    (hs : args.source = none) (hd : args.dest = none)
    (hp : args.probs = none) (hag : parseAges args.ages = some sel) :
    make_scen args = Except.ok
      { label := args.label.getD "", year := args.year,
        efficacy_overrides := args.eff.getD [],
        probability_overrides :=
          [{ method := some m, source := none, dest := none, ages := sel,
             init_factor := some f, init_value := args.init_value,
             value := args.value, copy_from := args.copy_from }] } := by
  have hsh : shorthandGiven args = true := by
    simp [shorthandGiven, hm]
  have hdict : shorthandDict args =
      { method := some m, source := none, dest := none, ages := args.ages,
        init_factor := some f, init_value := args.init_value,
        value := args.value, copy_from := args.copy_from } := by
    simp [shorthandDict, hm, hf, hs, hd]
  have hbo : buildOverride (shorthandDict args) = Except.ok
      { method := some m, source := none, dest := none, ages := sel,
        init_factor := some f, init_value := args.init_value,
        value := args.value, copy_from := args.copy_from } := by
    rw [hdict]
    simp [buildOverride, identifiesTarget, hag]
  simp [make_scen, hp, hsh, hbo, Except.map]

/-- Witness for C5: the T2 cell-5 input
`method='Injectables', init_factor=2, year=2020`. -/
theorem shorthand_single_override_witness :
    make_scen argsC5 = Except.ok
      { label := "", year := 2020, efficacy_overrides := [],
        probability_overrides :=
          [{ method := some "Injectables", init_factor := some 2 }] } :=
  shorthand_single_override argsC5 "Injectables" 2 [] rfl rfl rfl rfl rfl rfl

/-- C6: when `eff` is supplied (and no `probs` list or shorthand), the built
spec's `efficacy_overrides` equals the given mapping and its
`probability_overrides` is empty. -/
theorem eff_direct (args : MakeScenArgs) (e : List (String × ℚ))
    (he : args.eff = some e) (hp : args.probs = none)
    (hsh : shorthandGiven args = false) :
    make_scen args = Except.ok
      { label := args.label.getD "", year := args.year,
        efficacy_overrides := e, probability_overrides := [] } := by
  simp [make_scen, hp, hsh, he]

/-- Witness for C6: the T2 cell-3 input `eff={'Injectables':0.99}, year=2020`. -/
theorem eff_direct_witness :
    make_scen argsC6 = Except.ok
      { label := "", year := 2020,
        efficacy_overrides := [("Injectables", 99/100)],
        probability_overrides := [] } :=
  eff_direct argsC6 [("Injectables", 99/100)] rfl rfl rfl

/-- C7: every builder input describing a transition override with no
identifying field (neither `method` nor a (source, dest) pair) or with an
unparsable `ages` expression produces a configuration error at build time,
on both builder paths — an entry of an explicit `probs` list, or the
top-level shorthand fields — and the error is returned, never silently
swallowed. -/
theorem invalid_override_errors (args : MakeScenArgs)
    (hbad :
      (∃ ds, args.probs = some ds ∧ ∃ d ∈ ds,
        identifiesTarget d = false ∨ parseAges d.ages = none) ∨
      (args.probs = none ∧ shorthandGiven args = true ∧
        (identifiesTarget (shorthandDict args) = false ∨
          parseAges (shorthandDict args).ages = none))) :
    ∃ e, make_scen args = Except.error e := by
  rcases hbad with ⟨ds, hp, d, hd, hbd⟩ | ⟨hp, hsh, hbd⟩
  · obtain ⟨e₀, he₀⟩ := buildOverride_error_of_bad d hbd
    obtain ⟨e, he⟩ := buildOverrides_error_of_mem ds d hd e₀ he₀
    exact ⟨e, by simp [make_scen, hp, he, Except.map]⟩
  · obtain ⟨e₀, he₀⟩ := buildOverride_error_of_bad (shorthandDict args) hbd
    exact ⟨e₀, by simp [make_scen, hp, hsh, he₀, Except.map]⟩

/-- Witness for C7, exercising all three failure shapes: a `probs` entry with
only `init_factor` and no identifying key, a shorthand input with only
`init_factor` and no identifying key, and a shorthand input with an
unparsable `ages` expression. -/
theorem invalid_override_errors_witness :
    (∃ e, make_scen argsC7 = Except.error e) ∧
    (∃ e, make_scen argsC7s = Except.error e) ∧
    (∃ e, make_scen argsC7u = Except.error e) :=
  ⟨invalid_override_errors argsC7
      (Or.inl ⟨[badDict], rfl, badDict, List.Mem.head _, Or.inl rfl⟩),
   invalid_override_errors argsC7s (Or.inr ⟨rfl, rfl, Or.inl rfl⟩),
   invalid_override_errors argsC7u (Or.inr ⟨rfl, rfl, Or.inr rfl⟩)⟩

/-- C8: every spec built with `ages='>35'` (shorthand path) carries a band
selector matching exactly the ages strictly greater than 35: each of its
overrides selects an age `a` precisely when `35 < a`. -/
theorem ages_gt35_selector (args : MakeScenArgs) (s : ScenarioSpec)
    (o : TransitionOverride) (a : ℚ)
    (hages : args.ages = AgesInput.single ">35")
    (hp : args.probs = none)
    (hok : make_scen args = Except.ok s)
    (ho : o ∈ s.probability_overrides) :
    selectorMatches o.ages a = decide ((35 : ℚ) < a) := by
  have hsel : parseAges args.ages = some [AgeBand.gt 35] := by
    rw [hages]; rfl
  by_cases hsh : shorthandGiven args = true
  · by_cases hid : identifiesTarget (shorthandDict args) = true
    · have hdict : shorthandDict args =
          { method := args.method, source := args.source, dest := args.dest,
            ages := args.ages, init_factor := args.init_factor,
            init_value := args.init_value, value := args.value,
            copy_from := args.copy_from } := rfl
      rw [hdict] at hid
      have hbo : buildOverride (shorthandDict args) = Except.ok
          { method := args.method, source := args.source, dest := args.dest,
            ages := [AgeBand.gt 35], init_factor := args.init_factor,
            init_value := args.init_value, value := args.value,
            copy_from := args.copy_from } := by
        rw [hdict]
        simp [buildOverride, hid, hsel]
      simp only [make_scen, hp, hsh, if_true, hbo, Except.map,
        Except.ok.injEq] at hok
      rw [← hok] at ho
      simp only [List.mem_singleton] at ho
      subst ho
      simp [selectorMatches, bandMatches]
    · exfalso
      have hbo : buildOverride (shorthandDict args)
          = Except.error ConfigError.missingIdentifier := by
        simp [buildOverride, hid]
      simp only [make_scen, hp, hsh, if_true, hbo, Except.map] at hok
      exact Except.noConfusion hok
  · have hsh' : shorthandGiven args = false := by
      simpa using hsh
    simp only [make_scen, hp, hsh', Bool.false_eq_true, if_false,
      Except.ok.injEq] at hok
    rw [← hok] at ho
    simp at ho

/-- Witness for C8: the T2 cell-11 input
`method='Injectables', init_factor=2.0, ages='>35', year=2027`, evaluated at
age 36. -/
theorem ages_gt35_selector_witness :
    selectorMatches overrideC8.ages 36 = decide ((35 : ℚ) < 36) :=
  ages_gt35_selector argsC8 specC8 overrideC8 36 rfl rfl (by rfl)
    (List.Mem.head _)
